import Mathlib

/-!
Shallow embedding of the data-unification pipeline of the `ana` repository
(`data_processor.py`, `src/utils/data_processor.py`, `utils.py`,
`gemini_chatbot.py`, `config.py`) and verification of the frozen claims
about it.

A pandas dataframe is modelled as a list of column names together with a
list of rows; a cell is `Option String`, with `none` standing for
NaN/missing.  The two opaque pandas coercions `pd.to_datetime(..,
errors='coerce')` and `pd.to_numeric(.., errors='coerce')` are modelled as
arbitrary cell-level parse functions (`String → Option String`) that the
theorems quantify over; everything else is translated directly from the
Python source.
-/

namespace Ana

/-- A dataframe cell: `none` models NaN. -/
abbrev Cell := Option String

/-- Model of a pandas `DataFrame`: column names plus rows of cells. -/
structure DataFrame where
  cols : List String
  rows : List (List Cell)
deriving DecidableEq, Repr

/-- `pd.DataFrame()`: the empty dataframe. -/
def DataFrame.empty : DataFrame := ⟨[], []⟩

/-- `df.empty` in pandas: true when either axis has length zero. -/
def DataFrame.isEmpty (df : DataFrame) : Bool :=
  df.rows.isEmpty || df.cols.isEmpty

/-- A dataframe is well-formed when every row has one cell per column. -/
def WF (df : DataFrame) : Prop :=
  ∀ r ∈ df.rows, r.length = df.cols.length

/-- `pat` is a leading segment of the character list. -/
def leadsList : List Char → List Char → Bool
  | [], _ => true
  | _ :: _, [] => false
  | a :: as, b :: bs => a == b && leadsList as bs

/-- All suffixes of a list, longest first (used for substring search). -/
def suffixes : List Char → List (List Char)
  | [] => [[]]
  | a :: as => (a :: as) :: suffixes as

/-- Python's `pat in s`: substring containment. -/
def strContains (s pat : String) : Bool :=
  (suffixes s.toList).any (fun t => leadsList pat.toList t)

/-- `str.lower` on one character (ASCII model of Python's lower). -/
def pyLowerChar (c : Char) : Char :=
  if 65 ≤ c.toNat ∧ c.toNat ≤ 90 then Char.ofNat (c.toNat + 32) else c

/-- `str.lower` (ASCII model; Arabic characters have no case). -/
def pyToLower (s : String) : String := ⟨s.data.map pyLowerChar⟩

/-- Python whitespace (`\s` over ASCII): space, tab, newline, CR, VT, FF. -/
def isPySpaceChar (c : Char) : Bool :=
  c == ' ' || c == '\t' || c == '\n' || c == '\r' || c.toNat == 11 || c.toNat == 12

/-- `str.strip()`: drop leading and trailing whitespace. -/
def pyStrip (s : String) : String :=
  ⟨((s.data.dropWhile isPySpaceChar).reverse.dropWhile isPySpaceChar).reverse⟩

/-- The cells of column `j`, one per row (`df[col]` as a series). -/
def colCells (df : DataFrame) (j : Nat) : List Cell :=
  df.rows.map (fun r => r.getD j none)

/-- The `status_mappings` dictionary of `_standardize_status_values`. -/
def statusMappings : List (String × String) :=
  [("مفتوح - Open", "مفتوح"),
   ("مغلق - Close", "مغلق"),
   ("مغلق - Closed", "مغلق"),
   ("Closed - Close", "مغلق"),
   ("Open", "مفتوح"),
   ("Close", "مغلق"),
   ("Closed", "مغلق")]

/-- The column-name test of `_standardize_status_values`:
`any(keyword in col.lower() for keyword in ['حالة', 'status', 'state'])`. -/
def isStatusColName (name : String) : Bool :=
  ["حالة", "status", "state"].any (fun k => strContains (pyToLower name) k)

/-- One cell under `df[col].map(status_mappings).fillna(df[col])`:
a dictionary key is replaced by its image, everything else is kept. -/
def mapStatusCell (c : Cell) : Cell :=
  c.map (fun v => (statusMappings.lookup v).getD v)

/-- `_standardize_status_values`: rewrite cells of status-named columns
through the fixed dictionary, leave all other columns alone. -/
def standardizeStatusValues (df : DataFrame) : DataFrame :=
  ⟨df.cols,
   df.rows.map (fun r =>
     List.zipWith (fun c x => if isStatusColName c then mapStatusCell x else x)
       df.cols r)⟩

section StatusLemmas

/-- A successful dictionary lookup returns one of the stored values. -/
theorem lookup_mem_values (l : List (String × String)) (v w : String)
    (h : l.lookup v = some w) : w ∈ l.map Prod.snd := by
  induction l with
  | nil => simp [List.lookup] at h
  | cons p t ih =>
    rw [List.lookup] at h
    by_cases hv : v == p.1
    · simp [hv] at h
      simp [← h]
    · simp [hv] at h
      exact List.mem_cons_of_mem _ (ih h)

/-- If a key is absent from an association list, lookup fails. -/
theorem lookup_eq_none_of_not_mem (l : List (String × String)) (v : String)
    (h : ∀ w, (v, w) ∉ l) : l.lookup v = none := by
  induction l with
  | nil => rfl
  | cons p t ih =>
    have hv : (v == p.1) = false := by
      apply beq_eq_false_iff_ne.mpr
      intro e
      exact h p.2 (by simp [e])
    simp only [List.lookup, hv]
    exact ih (fun w hw => h w (List.mem_cons_of_mem _ hw))

/-- Every entry of the dictionary can be looked up (keys are distinct). -/
theorem lookup_of_mem_statusMappings (v w : String)
    (h : (v, w) ∈ statusMappings) : statusMappings.lookup v = some w := by
  fin_cases h <;> rfl

/-- No image of the status dictionary is itself a key. -/
theorem lookup_image_eq_none (v w : String)
    (h : statusMappings.lookup v = some w) :
    statusMappings.lookup w = none := by
  have hw := lookup_mem_values _ _ _ h
  fin_cases hw <;> decide

/-- Rewriting a cell through the status dictionary is idempotent. -/
theorem mapStatusCell_idem (c : Cell) :
    mapStatusCell (mapStatusCell c) = mapStatusCell c := by
  cases c with
  | none => rfl
  | some v =>
    simp only [mapStatusCell, Option.map_some]
    cases h : statusMappings.lookup v with
    | none => simp [h]
    | some w => simp [h, lookup_image_eq_none v w h]

theorem zipWith_statusCell_idem (cols : List String) (r : List Cell) :
    List.zipWith (fun c x => if isStatusColName c then mapStatusCell x else x) cols
      (List.zipWith (fun c x => if isStatusColName c then mapStatusCell x else x) cols r)
    = List.zipWith (fun c x => if isStatusColName c then mapStatusCell x else x) cols r := by
  induction cols generalizing r with
  | nil => simp
  | cons c cs ih =>
    cases r with
    | nil => simp
    | cons x xs =>
      simp only [List.zipWith]
      by_cases hc : isStatusColName c
      · simp [hc, mapStatusCell_idem, ih]
      · simp [hc, ih]

/-- Cell `i, j` of a dataframe (missing positions read as NaN). -/
def cellAt (df : DataFrame) (i j : Nat) : Cell :=
  (df.rows.getD i []).getD j none

theorem zipWith_getD (f : String → Cell → Cell) (cols : List String)
    (r : List Cell) (j : Nat) (hj : j < cols.length) (hr : j < r.length) :
    (List.zipWith f cols r).getD j none = f (cols.getD j "") (r.getD j none) := by
  induction cols generalizing r j with
  | nil => simp at hj
  | cons c cs ih =>
    cases r with
    | nil => simp at hr
    | cons x xs =>
      cases j with
      | zero => rfl
      | succ k =>
        simp only [List.zipWith, List.getD_cons_succ]
        exact ih xs k (by simpa using hj) (by simpa using hr)

/-- The pointwise description of `_standardize_status_values` on a cell. -/
theorem cellAt_standardizeStatusValues (df : DataFrame) (hwf : WF df)
    (i j : Nat) (hj : j < df.cols.length) :
    cellAt (standardizeStatusValues df) i j
      = if isStatusColName (df.cols.getD j "") then mapStatusCell (cellAt df i j)
        else cellAt df i j := by
  cases hri : df.rows.get? i with
  | none =>
    have h1 : df.rows.getD i [] = [] := by
      simp [List.getD_eq_getElem?_getD, ← List.get?_eq_getElem?, hri]
    have h2 : (standardizeStatusValues df).rows.getD i [] = [] := by
      simp [standardizeStatusValues, List.getD_eq_getElem?_getD,
        ← List.get?_eq_getElem?, List.get?_map, hri]
    rw [cellAt, cellAt, h1, h2]
    cases isStatusColName (df.cols.getD j "") <;> simp [mapStatusCell]
  | some r =>
    have hmem : r ∈ df.rows := List.get?_mem hri
    have hlen : r.length = df.cols.length := hwf r hmem
    have h1 : df.rows.getD i [] = r := by
      simp [List.getD_eq_getElem?_getD, ← List.get?_eq_getElem?, hri]
    have h2 : (standardizeStatusValues df).rows.getD i []
        = List.zipWith
            (fun c x => if isStatusColName c then mapStatusCell x else x)
            df.cols r := by
      simp [standardizeStatusValues, List.getD_eq_getElem?_getD,
        ← List.get?_eq_getElem?, List.get?_map, hri]
    rw [cellAt, cellAt, h1, h2,
      zipWith_getD _ df.cols r j hj (hlen ▸ hj)]

end StatusLemmas

/-- C3: `_standardize_status_values` rewrites values only in columns whose
lowercased name contains `"حالة"`, `"status"` or `"state"`: a value that is
a key of the fixed dictionary is replaced by its image, every other value
in those columns is left unchanged, and all other columns are unchanged. -/
theorem standardizeStatusValues_spec (df : DataFrame) (hwf : WF df)
    (i j : Nat) (hj : j < df.cols.length) :
    (standardizeStatusValues df).cols = df.cols ∧
    (standardizeStatusValues df).rows.length = df.rows.length ∧
    (isStatusColName (df.cols.getD j "") = false →
      cellAt (standardizeStatusValues df) i j = cellAt df i j) ∧
    (isStatusColName (df.cols.getD j "") = true →
      (∀ v w, cellAt df i j = some v → (v, w) ∈ statusMappings →
        cellAt (standardizeStatusValues df) i j = some w) ∧
      (∀ v, cellAt df i j = some v → (∀ w, (v, w) ∉ statusMappings) →
        cellAt (standardizeStatusValues df) i j = some v) ∧
      (cellAt df i j = none → cellAt (standardizeStatusValues df) i j = none)) := by
  have hc := cellAt_standardizeStatusValues df hwf i j hj
  refine ⟨rfl, by simp [standardizeStatusValues], ?_, ?_⟩
  · intro hcol
    rw [hc, hcol]
    simp
  · intro hcol
    rw [hc, hcol] at *
    refine ⟨?_, ?_, ?_⟩
    · intro v w hv hvw
      simp only [if_pos rfl, hv, mapStatusCell, Option.map_some]
      simp [lookup_of_mem_statusMappings v w hvw]
    · intro v hv hnot
      simp only [if_pos rfl, hv, mapStatusCell, Option.map_some]
      simp [lookup_eq_none_of_not_mem _ v hnot]
    · intro hv
      simp [hv, mapStatusCell]

/-- Witness for C3 at a one-cell dataframe with a status column. -/
theorem standardizeStatusValues_spec_witness :
    (standardizeStatusValues ⟨["status"], [[some "Open"]]⟩).cols = ["status"] ∧
    cellAt (standardizeStatusValues ⟨["status"], [[some "Open"]]⟩) 0 0
      = some "مفتوح" := by
  have h := standardizeStatusValues_spec ⟨["status"], [[some "Open"]]⟩
    (by intro r hr; fin_cases hr <;> rfl) 0 0 (by decide)
  exact ⟨h.1, (h.2.2.2 (by decide)).1 "Open" "مفتوح" (by decide) (by decide)⟩

/-- One step of collapsing character runs: the flag records whether the
previous character was part of a run being replaced. -/
def collapseGo (p : Char → Bool) : Bool → List Char → List Char
  | _, [] => []
  | prev, c :: cs =>
    if p c then
      if prev then collapseGo p true cs else '_' :: collapseGo p true cs
    else c :: collapseGo p false cs

/-- `re.sub(r'X+', '_', s)`: maximal runs of characters satisfying `p`
become a single underscore. -/
def collapseRuns (p : Char → Bool) (s : String) : String :=
  ⟨collapseGo p false s.data⟩

/-- Body of `_clean_column_names` for a non-`Unnamed` header:
`strip`, then `\n+ → _`, then `\s+ → _`. -/
def pyCleanName (s : String) : String :=
  collapseRuns isPySpaceChar (collapseRuns (fun c => c == '\n') (pyStrip s))

/-- `_clean_column_names`: `Unnamed` headers become `col_<index>`, the rest
are cleaned.  (Headers are modelled as strings, so the `pd.isna(col)`
branch of the source cannot fire here.) -/
def cleanColumnNames (cols : List String) : List String :=
  cols.enum.map (fun p =>
    if leadsList "Unnamed".data p.2.data then "col_" ++ toString p.1
    else pyCleanName p.2)

/-- `df.dropna(how='all')`: drop rows whose cells are all NaN. -/
def dropEmptyRows (df : DataFrame) : DataFrame :=
  ⟨df.cols, df.rows.filter (fun r => r.any (fun c => c.isSome))⟩

/-- Indices of columns that keep at least one non-NaN cell. -/
def keepColIdxs (df : DataFrame) : List Nat :=
  (List.range df.cols.length).filter
    (fun j => df.rows.any (fun r => (r.getD j none).isSome))

/-- `df.dropna(axis=1, how='all')`: drop all-NaN columns. -/
def dropEmptyCols (df : DataFrame) : DataFrame :=
  ⟨(keepColIdxs df).map (fun j => df.cols.getD j ""),
   df.rows.map (fun r => (keepColIdxs df).map (fun j => r.getD j none))⟩

/-- `_is_header_row`: `row.notna().sum() > len(row) * 0.5` (the float
comparison is exact, equivalent to `2 * notna > len`). -/
def isHeaderRow (r : List Cell) : Bool :=
  decide (r.length < r.countP (fun c => c.isSome) * 2)

/-- The promoted header names taken from the first data row:
`str(col).strip() if pd.notna(col) else f"col_{i}"`. -/
def promotedNames (r : List Cell) : List String :=
  r.enum.map (fun p =>
    match p.2 with
    | some v => pyStrip v
    | none => "col_" ++ toString p.1)

/-- Date-column keyword test of `_standardize_data_types`. -/
def isDateColName (name : String) : Bool :=
  ["تاريخ", "date"].any (fun k => strContains (pyToLower name) k)

/-- Numeric-column keyword test of `_standardize_data_types`. -/
def isNumColName (name : String) : Bool :=
  ["عدد", "نسبة", "رقم", "number", "count", "percentage"].any
    (fun k => strContains (pyToLower name) k)

/-- `_standardize_data_types`: date-keyword columns go through
`pd.to_datetime(.., errors='coerce')`, numeric-keyword columns through
`pd.to_numeric(.., errors='coerce')`; both coercions are the parameters
`pdt`/`pnm` (NaN maps to NaN via `Option.bind`). -/
def standardizeDataTypes (pdt pnm : String → Option String) (df : DataFrame) :
    DataFrame :=
  ⟨df.cols,
   df.rows.map (fun r =>
     List.zipWith
       (fun c x =>
         if isDateColName c then x.bind pdt
         else if isNumColName c then x.bind pnm
         else x)
       df.cols r)⟩

/-- `_clean_text_data` на one cell: `astype(str)` (NaN prints as "nan"),
strip, then `'nan'` and `''` back to NaN. -/
def cleanTextCell (c : Cell) : Cell :=
  let s := pyStrip (match c with | some v => v | none => "nan")
  if s == "nan" || s == "" then none else some s

/-- `_clean_text_data`: applies to the object-dtype columns, i.e. those
not converted to datetime or numeric by `_standardize_data_types`. -/
def cleanTextData (df : DataFrame) : DataFrame :=
  ⟨df.cols,
   df.rows.map (fun r =>
     List.zipWith
       (fun c x =>
         if isDateColName c || isNumColName c then x else cleanTextCell x)
       df.cols r)⟩

/-- `_clean_dataframe`: early return on empty, drop empty rows/columns,
clean headers, promote the first row to headers when `_is_header_row`
accepts it, then standardize types, text and status values. -/
def cleanDataframe (pdt pnm : String → Option String) (df : DataFrame) :
    DataFrame :=
  if df.isEmpty then df
  else
    let d1 := dropEmptyCols (dropEmptyRows df)
    let d2 : DataFrame := ⟨cleanColumnNames d1.cols, d1.rows⟩
    let d3 : DataFrame :=
      match d2.rows with
      | [] => d2
      | r :: rest =>
        if isHeaderRow r then ⟨cleanColumnNames (promotedNames r), rest⟩
        else d2
    standardizeStatusValues (cleanTextData (standardizeDataTypes pdt pnm d3))

theorem pipeline_rows_length (pdt pnm : String → Option String) (d : DataFrame) :
    (standardizeStatusValues (cleanTextData (standardizeDataTypes pdt pnm d))).rows.length
      = d.rows.length := by
  simp [standardizeStatusValues, cleanTextData, standardizeDataTypes]

theorem pipeline_cols (pdt pnm : String → Option String) (d : DataFrame) :
    (standardizeStatusValues (cleanTextData (standardizeDataTypes pdt pnm d))).cols
      = d.cols := rfl

/-- C9: for a non-empty dataframe, `_clean_dataframe` promotes the first
data row (after dropping all-NaN rows and columns) to column headers
exactly when strictly more than half of its entries are non-null; it then
removes that row, so the result has one row fewer, and its cleaned values
become the column names; otherwise the rows and the original (cleaned)
headers are kept. -/
theorem cleanDataframe_header_promotion (pdt pnm : String → Option String)
    (df : DataFrame) (hne : df.isEmpty = false)
    (r : List Cell) (rest : List (List Cell))
    (hr : (dropEmptyCols (dropEmptyRows df)).rows = r :: rest) :
    (r.length < r.countP (fun c => c.isSome) * 2 →
      (cleanDataframe pdt pnm df).rows.length
          = (dropEmptyCols (dropEmptyRows df)).rows.length - 1 ∧
      (cleanDataframe pdt pnm df).cols = cleanColumnNames (promotedNames r)) ∧
    (¬ r.length < r.countP (fun c => c.isSome) * 2 →
      (cleanDataframe pdt pnm df).rows.length
          = (dropEmptyCols (dropEmptyRows df)).rows.length ∧
      (cleanDataframe pdt pnm df).cols
          = cleanColumnNames (dropEmptyCols (dropEmptyRows df)).cols) := by
  have hclean : cleanDataframe pdt pnm df
      = standardizeStatusValues (cleanTextData (standardizeDataTypes pdt pnm
          (if isHeaderRow r then ⟨cleanColumnNames (promotedNames r), rest⟩
           else ⟨cleanColumnNames (dropEmptyCols (dropEmptyRows df)).cols,
                 (dropEmptyCols (dropEmptyRows df)).rows⟩))) := by
    rw [cleanDataframe, if_neg (by simp [hne])]
    simp only [hr]
  constructor
  · intro hlt
    have hh : isHeaderRow r = true := by
      simp [isHeaderRow, hlt]
    rw [hclean, hh]
    refine ⟨?_, rfl⟩
    rw [pipeline_rows_length, hr]
    simp
  · intro hlt
    have hh : isHeaderRow r = false := by
      simp [isHeaderRow, hlt]
    rw [hclean, hh]
    simp only [Bool.false_eq_true, if_false]
    exact ⟨pipeline_rows_length _ _ _, rfl⟩


/-- Witness for C9: a two-row frame whose first row is fully non-null is
promoted to headers; the cleaned result keeps one data row. -/
theorem cleanDataframe_header_promotion_witness :
    (cleanDataframe (fun _ => none) (fun _ => none)
        ⟨["col_a", "col_b"], [[some "الاسم", some "الحالة"], [some "x", some "y"]]⟩).rows.length
      = 1 ∧
    (cleanDataframe (fun _ => none) (fun _ => none)
        ⟨["col_a", "col_b"], [[some "الاسم", some "الحالة"], [some "x", some "y"]]⟩).cols
      = cleanColumnNames (promotedNames [some "الاسم", some "الحالة"]) := by
  have h := cleanDataframe_header_promotion (fun _ => none) (fun _ => none)
    ⟨["col_a", "col_b"], [[some "الاسم", some "الحالة"], [some "x", some "y"]]⟩
    (by decide) [some "الاسم", some "الحالة"] [[some "x", some "y"]] (by decide)
  have h2 := h.1 (by decide)
  exact ⟨by rw [h2.1]; decide, h2.2⟩

/-- C10: `_standardize_status_values` is idempotent: applying it twice is
the same as applying it once, because no image of the fixed status
dictionary (`'مفتوح'`, `'مغلق'`) is itself a key of that dictionary. -/
theorem standardizeStatusValues_idem (df : DataFrame) :
    standardizeStatusValues (standardizeStatusValues df)
      = standardizeStatusValues df := by
  cases df with
  | mk cols rows =>
    simp only [standardizeStatusValues, List.map_map, DataFrame.mk.injEq, true_and]
    apply List.map_congr_left
    intro r _
    exact zipWith_statusCell_idem cols r

/-- Keep the first occurrence of each element (order of `set()` iteration
is modelled as first-appearance order; the claims never depend on it). -/
def dedupFirstAux [BEq α] (seen : List α) : List α → List α
  | [] => []
  | a :: as =>
    if seen.contains a then dedupFirstAux seen as
    else a :: dedupFirstAux (a :: seen) as

def dedupFirst [BEq α] (l : List α) : List α := dedupFirstAux [] l

/-- Row restriction matching `df.loc[:, ~df.columns.duplicated()]`: keep the
cell of each first-occurring column name. -/
def keepFirstRow (seen : List String) : List String → List Cell → List Cell
  | c :: cs, x :: xs =>
    if seen.contains c then keepFirstRow seen cs xs
    else x :: keepFirstRow (c :: seen) cs xs
  | _, _ => []

/-- `df.loc[:, ~df.columns.duplicated()]`. -/
def dropDupCols (df : DataFrame) : DataFrame :=
  ⟨dedupFirst df.cols, df.rows.map (fun r => keepFirstRow [] df.cols r)⟩

/-- The cell of named column `c` in row `r`; an absent column reads as NaN
(this covers both `df[cols]` selection and `df.reindex(columns=cols)`). -/
def cellAtCol (df : DataFrame) (r : List Cell) (c : String) : Cell :=
  match df.cols.findIdx? (fun x => x == c) with
  | some j => r.getD j none
  | none => none

/-- Column selection / reindex by a list of column names. -/
def selectCols (df : DataFrame) (cs : List String) : DataFrame :=
  ⟨cs, df.rows.map (fun r => cs.map (cellAtCol df r))⟩

/-- The intersection of the column sets of the given dataframes
(`set(d0.columns) ∩ ...`), listed in first-dataframe order. -/
def commonCols : List DataFrame → List String
  | [] => []
  | d :: ds => (dedupFirst d.cols).filter (fun c => ds.all (fun e => e.cols.contains c))

/-- `pd.concat(.., ignore_index=True)` of frames sharing the column list. -/
def pdConcatRows (cols : List String) (dfs : List DataFrame) : DataFrame :=
  ⟨cols, (dfs.map (fun d => d.rows)).join⟩

/-- `df[name] = v` with a scalar: overwrite the column when present,
append it otherwise. -/
def setCol (df : DataFrame) (name v : String) : DataFrame :=
  if df.cols.contains name then
    ⟨df.cols,
     df.rows.map (fun r =>
       List.zipWith (fun c x => if c == name then some v else x) df.cols r)⟩
  else ⟨df.cols ++ [name], df.rows.map (fun r => r ++ [some v])⟩

/-- The per-dataset cleaning step of the utils `_merge_similar_datasets`:
drop duplicated columns, then add `source = dataset_<i>` when absent. -/
def cleanOne (p : Nat × DataFrame) : DataFrame :=
  let dfc := dropDupCols p.2
  if dfc.cols.contains "source" then dfc
  else setCol dfc "source" ("dataset_" ++ toString p.1)

def cleanedDatasets (datasets : List DataFrame) : List DataFrame :=
  datasets.enum.map cleanOne

/-- `_merge_similar_datasets` of `src/utils/data_processor.py`: clean each
dataset, restrict to the common columns of the cleaned datasets, and fall
back to the union of all columns when the intersection is empty. -/
def mergeSimilarDatasetsU (datasets : List DataFrame) : DataFrame :=
  match datasets with
  | [] => DataFrame.empty
  | [d] => d
  | _ :: _ :: _ =>
    let cleaned := cleanedDatasets datasets
    let common := commonCols cleaned
    if common.isEmpty then
      let allCols := dedupFirst ((cleaned.map (fun d => d.cols)).join)
      pdConcatRows allCols (cleaned.map (fun d => selectCols d allCols))
    else
      pdConcatRows common (cleaned.map (fun d => selectCols d common))

/-- `_merge_similar_datasets` of the top-level `data_processor.py`: restrict
every dataset to the common columns and concatenate; no fallback branch. -/
def mergeSimilarDatasets (datasets : List DataFrame) : DataFrame :=
  match datasets with
  | [] => DataFrame.empty
  | [d] => d
  | _ :: _ :: _ =>
    let common := commonCols datasets
    pdConcatRows common (datasets.map (fun d => selectCols d common))

/-- Modelled from the spec (claim C1's description of the merge): restrict
to the columns common to all input dataframes; when that intersection is
empty, reindex every dataframe to the union of all columns (missing
columns filled with NaN) and concatenate. -/
def mergeSimilarDatasetsClaim (datasets : List DataFrame) : DataFrame :=
  let common := commonCols datasets
  if common.isEmpty then
    let allCols := dedupFirst ((datasets.map (fun d => d.cols)).join)
    pdConcatRows allCols (datasets.map (fun d => selectCols d allCols))
  else
    pdConcatRows common (datasets.map (fun d => selectCols d common))

def dfA : DataFrame := ⟨["a"], [[some "1"]]⟩

def dfB : DataFrame := ⟨["b"], [[some "2"]]⟩

theorem mem_of_contains {l : List String} {a : String}
    (h : l.contains a = true) : a ∈ l := by
  simpa using h

theorem contains_of_mem {l : List String} {a : String}
    (h : a ∈ l) : l.contains a = true := by
  simpa using h

theorem mem_dedupFirstAux [BEq α] [LawfulBEq α] (l : List α) (a : α) :
    ∀ seen : List α, a ∈ dedupFirstAux seen l ↔ a ∈ l ∧ a ∉ seen := by
  induction l with
  | nil => simp [dedupFirstAux]
  | cons b t ih =>
    intro seen
    rw [dedupFirstAux]
    by_cases hb : seen.contains b
    · rw [if_pos hb, ih]
      have hbs : b ∈ seen := by simpa using hb
      constructor
      · rintro ⟨h1, h2⟩
        exact ⟨List.mem_cons_of_mem _ h1, h2⟩
      · rintro ⟨h1, h2⟩
        rcases List.mem_cons.mp h1 with h | h
        · exact absurd (h ▸ hbs) h2
        · exact ⟨h, h2⟩
    · rw [if_neg hb]
      have hbs : b ∉ seen := by simpa using hb
      by_cases hab : a = b
      · subst hab
        simp [hbs]
      · simp only [List.mem_cons, hab, false_or]
        rw [ih]
        simp [hab]

theorem source_mem_cleanOne (p : Nat × DataFrame) :
    "source" ∈ (cleanOne p).cols := by
  rw [cleanOne]
  by_cases h : (dropDupCols p.2).cols.contains "source"
  · rw [if_pos h]
    exact mem_of_contains h
  · rw [if_neg h, setCol, if_neg h]
    simp

theorem source_mem_commonCols (c0 : DataFrame) (cs : List DataFrame)
    (h0 : "source" ∈ c0.cols) (hall : ∀ d ∈ cs, "source" ∈ d.cols) :
    "source" ∈ commonCols (c0 :: cs) := by
  rw [commonCols]
  apply List.mem_filter.mpr
  refine ⟨(mem_dedupFirstAux c0.cols "source" []).mpr ⟨h0, by simp⟩, ?_⟩
  simp only [List.all_eq_true]
  intro d hd
  exact contains_of_mem (hall d hd)

/-- C1 counterexample: two dataframes with disjoint column sets.  Neither
implementation produces the union-of-columns result the claim describes:
the utils version injects a `source` column so the intersection is never
empty and the fallback is dead, and the top-level version has no fallback
at all. -/
theorem mergeSimilarDatasets_cex :
    mergeSimilarDatasetsU [dfA, dfB] ≠ mergeSimilarDatasetsClaim [dfA, dfB] ∧
    mergeSimilarDatasets [dfA, dfB] ≠ mergeSimilarDatasetsClaim [dfA, dfB] := by
  constructor <;> decide

/-- C1 (amended): for two or more dataframes, the utils merge first drops
duplicate columns and adds a `source` column where missing, then always
concatenates restricted to the common columns of the cleaned dataframes —
`source` is always among them, so the union-of-columns fallback never
runs; the top-level merge always restricts to the common columns of the
inputs with no fallback; a singleton list is returned unchanged. -/
theorem mergeSimilarDatasets_amended (datasets : List DataFrame)
    (d1 d2 : DataFrame) (rest : List DataFrame)
    (hd : datasets = d1 :: d2 :: rest) :
    "source" ∈ commonCols (cleanedDatasets datasets) ∧
    mergeSimilarDatasetsU datasets
      = pdConcatRows (commonCols (cleanedDatasets datasets))
          ((cleanedDatasets datasets).map
            (fun d => selectCols d (commonCols (cleanedDatasets datasets)))) ∧
    mergeSimilarDatasets datasets
      = pdConcatRows (commonCols datasets)
          (datasets.map (fun d => selectCols d (commonCols datasets))) ∧
    (∀ d : DataFrame, mergeSimilarDatasetsU [d] = d ∧ mergeSimilarDatasets [d] = d) := by
  have hsrc : ∀ d ∈ cleanedDatasets datasets, "source" ∈ d.cols := by
    intro d hdm
    rcases List.mem_map.mp hdm with ⟨p, _, rfl⟩
    exact source_mem_cleanOne p
  have hcl : cleanedDatasets datasets
      = cleanOne (0, d1) :: ((d2 :: rest).enumFrom 1).map cleanOne := by
    rw [hd, cleanedDatasets, List.enum]
    rfl
  have hmem : "source" ∈ commonCols (cleanedDatasets datasets) := by
    rw [hcl]
    apply source_mem_commonCols
    · exact source_mem_cleanOne _
    · intro d hdm
      apply hsrc
      rw [hcl]
      exact List.mem_cons_of_mem _ hdm
  have hne : (commonCols (cleanedDatasets datasets)).isEmpty = false := by
    cases h : commonCols (cleanedDatasets datasets) with
    | nil => rw [h] at hmem; simp at hmem
    | cons c cs => rfl
  refine ⟨hmem, ?_, ?_, fun d => ⟨rfl, rfl⟩⟩
  · rw [hd]
    show (if (commonCols (cleanedDatasets (d1 :: d2 :: rest))).isEmpty then _ else _) = _
    rw [hd] at hne
    rw [if_neg (by simp [hne])]
  · rw [hd]
    rfl

/-- Witness for C1's amended theorem at the two disjoint dataframes. -/
theorem mergeSimilarDatasets_amended_witness :
    "source" ∈ commonCols (cleanedDatasets [dfA, dfB]) ∧
    mergeSimilarDatasetsU [dfA, dfB]
      = pdConcatRows (commonCols (cleanedDatasets [dfA, dfB]))
          ((cleanedDatasets [dfA, dfB]).map
            (fun d => selectCols d (commonCols (cleanedDatasets [dfA, dfB])))) :=
  ⟨(mergeSimilarDatasets_amended [dfA, dfB] dfA dfB [] rfl).1,
   (mergeSimilarDatasets_amended [dfA, dfB] dfA dfB [] rfl).2.1⟩

/-- A loaded data source: an Excel workbook is a dict of sheet dataframes,
a CSV file a single dataframe (the `isinstance(data, dict)` test). -/
inductive LoadedData where
  | sheets (l : List (String × DataFrame))
  | single (df : DataFrame)
deriving DecidableEq

/-- The source-name test of `create_unified_dataset` for one category:
`'<arab>' in source or '<eng>' in source.lower()`. -/
def srcMatch (arab eng source : String) : Bool :=
  strContains source arab || strContains (pyToLower source) eng

/-- The tables one entry of `data_sources` contributes to a category:
every non-empty table of a matching source, with its `source` column set. -/
def entryTables (arab eng : String) (p : String × LoadedData) :
    List DataFrame :=
  if srcMatch arab eng p.1 then
    match p.2 with
    | .sheets l =>
      (l.filter (fun q => !q.2.isEmpty)).map
        (fun q => setCol q.2 "source" (p.1 ++ "_" ++ q.1))
    | .single df =>
      if df.isEmpty then [] else [setCol df "source" p.1]
  else []

/-- The dataframes one category collects over all sources. -/
def gatherCategory (arab eng : String) (ds : List (String × LoadedData)) :
    List DataFrame :=
  (ds.map (entryTables arab eng)).join

/-- Whether a source holds at least one non-empty table. -/
def hasNonEmptyTable : LoadedData → Bool
  | .sheets l => l.any (fun q => !q.2.isEmpty)
  | .single df => !df.isEmpty

/-- One category block of `create_unified_dataset`: the key is added only
when at least one dataframe was gathered. -/
def catBlock (n arab eng : String) (ds : List (String × LoadedData)) :
    List (String × DataFrame) :=
  let g := gatherCategory arab eng ds
  if g.isEmpty then [] else [(n, mergeSimilarDatasetsU g)]

/-- `create_unified_dataset`: the four category blocks in source order. -/
def createUnifiedDataset (ds : List (String × LoadedData)) :
    List (String × DataFrame) :=
  catBlock "inspections" "تفتيش" "inspection" ds
    ++ catBlock "incidents" "حوادث" "incident" ds
    ++ catBlock "risk_assessments" "مخاطر" "risk" ds
    ++ catBlock "contractor_audits" "مقاولين" "contractor" ds

/-- The category table of `create_unified_dataset`: output key, Arabic
keyword, English keyword. -/
def categoryKeywords : List (String × String × String) :=
  [("inspections", "تفتيش", "inspection"),
   ("incidents", "حوادث", "incident"),
   ("risk_assessments", "مخاطر", "risk"),
   ("contractor_audits", "مقاولين", "contractor")]

theorem lookup_catBlock_ne (c n arab eng : String)
    (ds : List (String × LoadedData)) (rest : List (String × DataFrame))
    (hne : c ≠ n) :
    List.lookup c (catBlock n arab eng ds ++ rest) = List.lookup c rest := by
  have hb : (c == n) = false := by simpa using hne
  rw [catBlock]
  cases (gatherCategory arab eng ds).isEmpty with
  | true => rfl
  | false =>
    simp only [Bool.false_eq_true, if_false, List.cons_append, List.nil_append,
      List.lookup, hb]
    rfl

theorem lookup_catBlock_self (n arab eng : String)
    (ds : List (String × LoadedData)) (rest : List (String × DataFrame)) :
    List.lookup n (catBlock n arab eng ds ++ rest)
      = if (gatherCategory arab eng ds).isEmpty
        then List.lookup n rest
        else some (mergeSimilarDatasetsU (gatherCategory arab eng ds)) := by
  rw [catBlock]
  cases (gatherCategory arab eng ds).isEmpty with
  | true => rfl
  | false =>
    simp [List.lookup]

/-- An entry contributes nothing exactly when it does not match the
category keyword or holds no non-empty table. -/
theorem entryTables_eq_nil_iff (arab eng : String) (p : String × LoadedData) :
    entryTables arab eng p = []
      ↔ ¬(srcMatch arab eng p.1 = true ∧ hasNonEmptyTable p.2 = true) := by
  obtain ⟨src, d⟩ := p
  by_cases hm : srcMatch arab eng src = true
  · cases d with
    | sheets l =>
      simp only [entryTables, hm, if_true, hasNonEmptyTable, true_and,
        List.map_eq_nil_iff, List.filter_eq_nil_iff]
      constructor
      · intro h hany
        rcases List.any_eq_true.mp hany with ⟨q, hq, hqe⟩
        exact absurd hqe (by simpa using h q hq)
      · intro h q hq hqe
        exact h (List.any_eq_true.mpr ⟨q, hq, hqe⟩)
    | single df =>
      simp only [entryTables, hm, if_true, hasNonEmptyTable, true_and]
      by_cases hdf : df.isEmpty = true
      · simp [hdf]
      · simp [hdf]
  · simp [entryTables, hm]

theorem gather_cons (arab eng : String) (p : String × LoadedData)
    (t : List (String × LoadedData)) :
    gatherCategory arab eng (p :: t)
      = entryTables arab eng p ++ gatherCategory arab eng t := by
  rw [gatherCategory, List.map_cons]
  rfl

/-- A category gathers something exactly when a matching source holds a
non-empty table. -/
theorem gather_isEmpty_false_iff (arab eng : String)
    (ds : List (String × LoadedData)) :
    (gatherCategory arab eng ds).isEmpty = false
      ↔ ∃ p ∈ ds, srcMatch arab eng p.1 = true ∧ hasNonEmptyTable p.2 = true := by
  induction ds with
  | nil => simp [gatherCategory]
  | cons p t ih =>
    rw [gather_cons]
    cases he : entryTables arab eng p with
    | nil =>
      rw [List.nil_append, ih]
      constructor
      · rintro ⟨q, hq, h1, h2⟩
        exact ⟨q, List.mem_cons_of_mem _ hq, h1, h2⟩
      · rintro ⟨q, hq, h1, h2⟩
        rcases List.mem_cons.mp hq with h | h
        · subst h
          exact absurd ⟨h1, h2⟩ ((entryTables_eq_nil_iff arab eng q).mp he)
        · exact ⟨q, h, h1, h2⟩
    | cons d l =>
      have hp : srcMatch arab eng p.1 = true ∧ hasNonEmptyTable p.2 = true := by
        by_contra hc
        rw [(entryTables_eq_nil_iff arab eng p).mpr hc] at he
        exact List.noConfusion he
      constructor
      · intro _
        exact ⟨p, List.mem_cons_self _ _, hp.1, hp.2⟩
      · intro _
        rfl

theorem lookup_lastBlock_ne (c n arab eng : String)
    (ds : List (String × LoadedData)) (hne : c ≠ n) :
    List.lookup c (catBlock n arab eng ds) = none := by
  have hb : (c == n) = false := by simpa using hne
  rw [catBlock]
  cases (gatherCategory arab eng ds).isEmpty with
  | true => rfl
  | false =>
    simp only [Bool.false_eq_true, if_false, List.lookup, hb]

/-- C2: for every mapping of source names to loaded tables,
`create_unified_dataset` assigns a source's tables to a unified category
exactly when the source name matches that category's keywords (the Arabic
keyword as a raw substring, the English keyword as a substring of the
lowercased name), and a category key appears in the output exactly when at
least one matching source holds a non-empty table — in which case its
value is the merge of the gathered tables. -/
theorem createUnifiedDataset_spec (ds : List (String × LoadedData))
    (n arab eng : String) (hmem : (n, arab, eng) ∈ categoryKeywords) :
    List.lookup n (createUnifiedDataset ds)
      = (if (gatherCategory arab eng ds).isEmpty then none
         else some (mergeSimilarDatasetsU (gatherCategory arab eng ds))) ∧
    ((List.lookup n (createUnifiedDataset ds)).isSome
      ↔ ∃ p ∈ ds, srcMatch arab eng p.1 = true ∧ hasNonEmptyTable p.2 = true) := by
  have main : List.lookup n (createUnifiedDataset ds)
      = (if (gatherCategory arab eng ds).isEmpty then none
         else some (mergeSimilarDatasetsU (gatherCategory arab eng ds))) := by
    fin_cases hmem
    · rw [createUnifiedDataset, List.append_assoc, List.append_assoc,
        lookup_catBlock_self]
      cases hg : (gatherCategory "تفتيش" "inspection" ds).isEmpty with
      | true =>
        simp only [hg, if_true]
        rw [lookup_catBlock_ne _ _ _ _ _ _ (by decide),
          lookup_catBlock_ne _ _ _ _ _ _ (by decide),
          lookup_lastBlock_ne _ _ _ _ _ (by decide)]
      | false => simp [hg]
    · rw [createUnifiedDataset, List.append_assoc, List.append_assoc,
        lookup_catBlock_ne _ _ _ _ _ _ (by decide), lookup_catBlock_self]
      cases hg : (gatherCategory "حوادث" "incident" ds).isEmpty with
      | true =>
        simp only [hg, if_true]
        rw [lookup_catBlock_ne _ _ _ _ _ _ (by decide),
          lookup_lastBlock_ne _ _ _ _ _ (by decide)]
      | false => simp [hg]
    · rw [createUnifiedDataset, List.append_assoc, List.append_assoc,
        lookup_catBlock_ne _ _ _ _ _ _ (by decide),
        lookup_catBlock_ne _ _ _ _ _ _ (by decide), lookup_catBlock_self]
      cases hg : (gatherCategory "مخاطر" "risk" ds).isEmpty with
      | true =>
        simp only [hg, if_true]
        rw [lookup_lastBlock_ne _ _ _ _ _ (by decide)]
      | false => simp [hg]
    · rw [createUnifiedDataset, List.append_assoc, List.append_assoc,
        lookup_catBlock_ne _ _ _ _ _ _ (by decide),
        lookup_catBlock_ne _ _ _ _ _ _ (by decide),
        lookup_catBlock_ne _ _ _ _ _ _ (by decide)]
      rw [← List.append_nil (catBlock "contractor_audits" "مقاولين" "contractor" ds),
        lookup_catBlock_self]
      cases hg : (gatherCategory "مقاولين" "contractor" ds).isEmpty with
      | true => simp [hg]
      | false => simp [hg]
  refine ⟨main, ?_⟩
  rw [main]
  cases hg : (gatherCategory arab eng ds).isEmpty with
  | true =>
    simp only [hg, if_true, Option.isSome_none, Bool.false_eq_true, false_iff]
    intro hex
    have := (gather_isEmpty_false_iff arab eng ds).mpr hex
    rw [hg] at this
    exact Bool.noConfusion this
  | false =>
    simp only [hg, Bool.false_eq_true, if_false, Option.isSome_some, true_iff]
    exact (gather_isEmpty_false_iff arab eng ds).mp hg

def dsW2 : List (String × LoadedData) :=
  [("تفتيش 2024", LoadedData.single ⟨["a"], [[some "x"]]⟩)]

/-- Witness for C2 at a single matching, non-empty CSV source. -/
theorem createUnifiedDataset_spec_witness :
    List.lookup "inspections" (createUnifiedDataset dsW2)
      = (if (gatherCategory "تفتيش" "inspection" dsW2).isEmpty then none
         else some (mergeSimilarDatasetsU (gatherCategory "تفتيش" "inspection" dsW2))) :=
  (createUnifiedDataset_spec dsW2 "inspections" "تفتيش" "inspection" (by decide)).1

/-- The per-column keyword test shared by the sniffers:
`any(keyword in col.lower() for keyword in kws)` at column index `j`. -/
def colKwMatch (kws : List String) (df : DataFrame) (j : Nat) : Bool :=
  kws.any (fun k => strContains (pyToLower (df.cols.getD j "")) k)

/-- `[col for col in df.columns if any(keyword in col.lower() ...)]`,
as the list of matching column indices in column order. -/
def matchColIdxs (kws : List String) (df : DataFrame) : List Nat :=
  (List.range df.cols.length).filter (colKwMatch kws df)

/-- `series.value_counts().to_dict()` viewed as a lookup function: the
count of value `v` among non-NaN cells, `none` when absent. -/
def vcLookup (xs : List Cell) (v : String) : Option Nat :=
  let n := xs.countP (fun c => c == some v)
  if n == 0 then none else some n

/-- `dict.update(new)` viewed on lookup functions: new keys win. -/
def dictUpdate (d e : String → Option Nat) : String → Option Nat :=
  fun v =>
    match e v with
    | some n => some n
    | none => d v

/-- The empty python dict `{}` as a lookup function. -/
def emptyDist : String → Option Nat := fun _ => none

/-- The common shape of `_get_status_distribution`,
`_get_department_distribution` and `_get_activity_distribution`: collect
`value_counts` of every matching column into one dict via `update`. -/
def distOverCols (kws : List String) (df : DataFrame) : String → Option Nat :=
  (matchColIdxs kws df).foldl
    (fun acc j => dictUpdate acc (vcLookup (colCells df j))) emptyDist

def statusDistKws : List String := ["حالة", "status"]

def deptDistKws : List String := ["إدارة", "قطاع", "department", "sector"]

def activityDistKws : List String := ["نشاط", "activity", "تصنيف"]

def getStatusDistribution (df : DataFrame) : String → Option Nat :=
  distOverCols statusDistKws df

def getDepartmentDistribution (df : DataFrame) : String → Option Nat :=
  distOverCols deptDistKws df

def getActivityDistribution (df : DataFrame) : String → Option Nat :=
  distOverCols activityDistKws df

def ksStatusKws : List String := ["حالة", "status"]

def ksDeptKws : List String := ["إدارة", "قطاع", "department"]

/-- The `status_distribution` entry of `_get_key_statistics`
(`gemini_chatbot.py`): the value counts of `df[status_cols[0]]`. -/
def getKeyStatsStatusDist (df : DataFrame) : Option (String → Option Nat) :=
  match matchColIdxs ksStatusKws df with
  | [] => none
  | j :: _ => some (vcLookup (colCells df j))

/-- The column `_get_key_statistics` uses for `top_departments`:
`dept_cols[0]`. -/
def getKeyStatsDeptCol (df : DataFrame) : Option Nat :=
  (matchColIdxs ksDeptKws df).head?

/-- Modelled from the spec (claim C4's description): the distribution
operations use exactly the first matching column. -/
def statusDistFirstOnly (df : DataFrame) : String → Option Nat :=
  match matchColIdxs statusDistKws df with
  | [] => emptyDist
  | j :: _ => vcLookup (colCells df j)

theorem findSome?_append_match (l1 l2 : List Nat) (f : Nat → Option Nat) :
    (l1 ++ l2).findSome? f
      = match l1.findSome? f with
        | some b => some b
        | none => l2.findSome? f := by
  induction l1 with
  | nil => rfl
  | cons a t ih =>
    simp only [List.cons_append, List.findSome?]
    cases f a with
    | none => exact ih
    | some b => rfl

theorem foldl_dictUpdate_lookup (df : DataFrame) (l : List Nat)
    (acc : String → Option Nat) (v : String) :
    (l.foldl (fun a j => dictUpdate a (vcLookup (colCells df j))) acc) v
      = match l.reverse.findSome? (fun j => vcLookup (colCells df j) v) with
        | some n => some n
        | none => acc v := by
  induction l generalizing acc with
  | nil => rfl
  | cons j t ih =>
    simp only [List.foldl_cons, List.reverse_cons]
    rw [ih, findSome?_append_match]
    cases t.reverse.findSome? (fun j => vcLookup (colCells df j) v) with
    | some n => rfl
    | none =>
      simp only [List.findSome?, dictUpdate]
      cases vcLookup (colCells df j) v with
      | some n => rfl
      | none => rfl

/-- The first element of a filtered range is the least matching index. -/
theorem filter_range_head_least (n : Nat) (p : Nat → Bool) (j : Nat)
    (rest : List Nat) (h : (List.range n).filter p = j :: rest) :
    ∀ i, i < j → p i = false := by
  intro i hij
  by_contra hpi
  have hpi' : p i = true := by simpa using hpi
  have hjn : j < n := by
    have : j ∈ (List.range n).filter p := by
      rw [h]
      exact List.mem_cons_self _ _
    exact List.mem_range.mp (List.mem_of_mem_filter this)
  have hin : i ∈ List.range n := List.mem_range.mpr (lt_trans hij hjn)
  have hif : i ∈ (List.range n).filter p :=
    List.mem_filter.mpr ⟨hin, hpi'⟩
  rw [h] at hif
  rcases List.mem_cons.mp hif with he | hr
  · exact absurd he (Nat.ne_of_lt hij)
  · have hpw : List.Pairwise (· < ·) ((List.range n).filter p) :=
      List.Pairwise.filter p (List.pairwise_lt_range n)
    rw [h] at hpw
    have := (List.pairwise_cons.mp hpw).1 i hr
    exact absurd hij (Nat.lt_asymm this)

/-- C4 (amended): `_get_key_statistics` uses exactly the first column (in
column order) whose name matches its keyword list, but the distribution
operations (`_get_status_distribution`, `_get_department_distribution`,
`_get_activity_distribution`) scan all matching columns and merge their
value counts with `dict.update`, so a value's count comes from the last
matching column containing it. -/
theorem distribution_columns_amended (df : DataFrame) (v : String) :
    (∀ j rest, matchColIdxs ksStatusKws df = j :: rest →
      getKeyStatsStatusDist df = some (vcLookup (colCells df j)) ∧
      ∀ i, i < j → colKwMatch ksStatusKws df i = false) ∧
    (∀ j rest, matchColIdxs ksDeptKws df = j :: rest →
      getKeyStatsDeptCol df = some j ∧
      ∀ i, i < j → colKwMatch ksDeptKws df i = false) ∧
    getStatusDistribution df v
      = (matchColIdxs statusDistKws df).reverse.findSome?
          (fun j => vcLookup (colCells df j) v) ∧
    getDepartmentDistribution df v
      = (matchColIdxs deptDistKws df).reverse.findSome?
          (fun j => vcLookup (colCells df j) v) ∧
    getActivityDistribution df v
      = (matchColIdxs activityDistKws df).reverse.findSome?
          (fun j => vcLookup (colCells df j) v) := by
  have hdist : ∀ kws : List String,
      distOverCols kws df v
        = (matchColIdxs kws df).reverse.findSome?
            (fun j => vcLookup (colCells df j) v) := by
    intro kws
    rw [distOverCols, foldl_dictUpdate_lookup]
    cases (matchColIdxs kws df).reverse.findSome?
        (fun j => vcLookup (colCells df j) v) with
    | some n => rfl
    | none => rfl
  refine ⟨?_, ?_, hdist statusDistKws, hdist deptDistKws, hdist activityDistKws⟩
  · intro j rest hj
    refine ⟨?_, filter_range_head_least _ _ _ _ hj⟩
    rw [getKeyStatsStatusDist, hj]
  · intro j rest hj
    refine ⟨?_, filter_range_head_least _ _ _ _ hj⟩
    rw [getKeyStatsDeptCol, hj]
    rfl

def dfC4 : DataFrame := ⟨["status_a", "status_b"], [[some "x", some "y"]]⟩

/-- C4 counterexample: with two status columns, `_get_status_distribution`
reports values of the second column, which the claim's first-column-only
reading would omit. -/
theorem distribution_columns_cex :
    getStatusDistribution dfC4 "y" = some 1 ∧
    statusDistFirstOnly dfC4 "y" = none := by
  constructor <;> decide

/-- Witness for C4's amended theorem at `dfC4`. -/
theorem distribution_columns_amended_witness :
    getKeyStatsStatusDist dfC4 = some (vcLookup (colCells dfC4 0)) ∧
    getStatusDistribution dfC4 "y"
      = (matchColIdxs statusDistKws dfC4).reverse.findSome?
          (fun j => vcLookup (colCells dfC4 j) "y") :=
  ⟨((distribution_columns_amended dfC4 "y").1 0 [1] (by decide)).1,
   (distribution_columns_amended dfC4 "y").2.2.1⟩

/-- The view of a dataframe taken by `_get_date_range`: per column its
name, whether its dtype is `datetime64[ns]`, and its values (`none` is
NaT), with timestamps modelled as integers. -/
structure DTFrame where
  cols : List (String × Bool × List (Option Int))
deriving DecidableEq

/-- `_get_date_range`: select the datetime-dtype columns, pool their
non-NaT values, and return the min and max; `None` when there is no
datetime column or no date at all. -/
def getDateRange (f : DTFrame) : Option (Int × Int) :=
  let dateCols := f.cols.filter (fun c => c.2.1)
  if dateCols.isEmpty then none
  else
    match (dateCols.map (fun c => c.2.2.filterMap id)).join with
    | [] => none
    | d :: ds => some (ds.foldl min d, ds.foldl max d)

/-- C5: when no column matches the relevant keyword list, the sniffer-based
operations return empty values instead of raising:
`_get_status_distribution`, `_get_department_distribution` and
`_get_activity_distribution` return the empty dict, and `_get_date_range`
returns `None` — also when the matched datetime columns hold no dates. -/
theorem sniffer_empty_results (df : DataFrame) (f : DTFrame) :
    ((∀ j, j < df.cols.length → colKwMatch statusDistKws df j = false) →
      ∀ v, getStatusDistribution df v = none) ∧
    ((∀ j, j < df.cols.length → colKwMatch deptDistKws df j = false) →
      ∀ v, getDepartmentDistribution df v = none) ∧
    ((∀ j, j < df.cols.length → colKwMatch activityDistKws df j = false) →
      ∀ v, getActivityDistribution df v = none) ∧
    ((∀ c ∈ f.cols, c.2.1 = false) → getDateRange f = none) ∧
    ((∀ c ∈ f.cols, c.2.1 = true → ∀ x ∈ c.2.2, x = none) →
      getDateRange f = none) := by
  have hmain : ∀ kws : List String,
      (∀ j, j < df.cols.length → colKwMatch kws df j = false) →
      ∀ v, distOverCols kws df v = none := by
    intro kws h v
    have hnil : matchColIdxs kws df = [] := by
      rw [matchColIdxs, List.filter_eq_nil_iff]
      intro j hj
      simp [h j (List.mem_range.mp hj)]
    rw [distOverCols, hnil]
    rfl
  refine ⟨hmain statusDistKws, hmain deptDistKws, hmain activityDistKws, ?_, ?_⟩
  · intro h
    have hnil : f.cols.filter (fun c => c.2.1) = [] := by
      rw [List.filter_eq_nil_iff]
      intro c hc
      simp [h c hc]
    simp only [getDateRange, hnil]
    rfl
  · intro h
    simp only [getDateRange]
    by_cases hde : (f.cols.filter (fun c => c.2.1)).isEmpty = true
    · rw [if_pos hde]
    · rw [if_neg hde]
      have hjoin :
          ((f.cols.filter (fun c => c.2.1)).map
            (fun c => c.2.2.filterMap id)).join = [] := by
        rw [List.join_eq_nil_iff]
        intro x hx
        rcases List.mem_map.mp hx with ⟨c, hc, rfl⟩
        have hcd := List.mem_filter.mp hc
        rw [List.filterMap_eq_nil_iff]
        intro a ha
        exact h c hcd.1 hcd.2 a ha
      rw [hjoin]

def dfW5 : DataFrame := ⟨["name"], [[some "v"]]⟩

def fW5 : DTFrame := ⟨[("d", false, [some 3])]⟩

/-- Witness for C5: a frame with no matching columns yields the empty
dict; a frame with no datetime column yields no date range. -/
theorem sniffer_empty_results_witness :
    getStatusDistribution dfW5 "v" = none ∧ getDateRange fW5 = none :=
  ⟨(sniffer_empty_results dfW5 fW5).1 (by decide) "v",
   (sniffer_empty_results dfW5 fW5).2.2.2.1 (by decide)⟩

/-- The outcome of one `pd.read_csv(path, encoding=e)` attempt. -/
inductive ReadOutcome where
  | ok (df : DataFrame)
  | unicodeError
  | otherError
deriving DecidableEq

/-- The encoding loop common to both CSV loaders: `some (some df)` on the
first successful read, `some none` when a non-Unicode error stops the
loop, `none` when every encoding raises `UnicodeDecodeError`. -/
def scanEncodings (file : String → ReadOutcome) :
    List String → Option (Option DataFrame)
  | [] => none
  | e :: rest =>
    match file e with
    | .ok df => some (some df)
    | .otherError => some none
    | .unicodeError => scanEncodings file rest

def procEncodings : List String := ["utf-8", "utf-8-sig", "cp1256", "iso-8859-1"]

def cachedEncodings : List String := ["utf-8-sig", "utf-8", "latin-1", "cp1252"]

/-- `load_csv_data` of `src/utils/data_processor.py`: try the encodings in
order (continuing on `UnicodeDecodeError`), then a last-resort read; the
whole body is wrapped in try/except returning `pd.DataFrame()`; a
successful read is passed through `_clean_dataframe`. -/
def lastResortLoad (pdt pnm : String → Option String)
    (lastResort : ReadOutcome) : DataFrame :=
  match lastResort with
  | .ok df => cleanDataframe pdt pnm df
  | .unicodeError => DataFrame.empty
  | .otherError => DataFrame.empty

def loadCsvDataProc (pdt pnm : String → Option String)
    (file : String → ReadOutcome) (lastResort : ReadOutcome) : DataFrame :=
  match scanEncodings file procEncodings with
  | some (some df) => cleanDataframe pdt pnm df
  | some none => DataFrame.empty
  | none => lastResortLoad pdt pnm lastResort

/-- `load_csv_with_encoding` of `utils.py`: same loop over its own
encoding list, successful reads returned raw; only the last-resort read
is wrapped in try/except, so a non-Unicode loop error propagates
(modelled as `Except.error`). -/
def lastResortCached (lastResort : ReadOutcome) : Except Unit DataFrame :=
  match lastResort with
  | .ok df => .ok df
  | .unicodeError => .ok DataFrame.empty
  | .otherError => .ok DataFrame.empty

def loadCsvWithEncoding (file : String → ReadOutcome)
    (lastResort : ReadOutcome) : Except Unit DataFrame :=
  match scanEncodings file cachedEncodings with
  | some (some df) => .ok df
  | some none => .error ()
  | none => lastResortCached lastResort

theorem scanEncodings_prefix_ok (file : String → ReadOutcome)
    (pre : List String) (e : String) (post : List String) (df : DataFrame)
    (hpre : ∀ x ∈ pre, file x = .unicodeError) (he : file e = .ok df) :
    scanEncodings file (pre ++ e :: post) = some (some df) := by
  induction pre with
  | nil => simp [scanEncodings, he]
  | cons a t ih =>
    rw [List.cons_append, scanEncodings, hpre a (List.mem_cons_self _ _)]
    exact ih (fun x hx => hpre x (List.mem_cons_of_mem _ hx))

theorem scanEncodings_all_unicode (file : String → ReadOutcome)
    (l : List String) (h : ∀ x ∈ l, file x = .unicodeError) :
    scanEncodings file l = none := by
  induction l with
  | nil => rfl
  | cons a t ih =>
    rw [scanEncodings, h a (List.mem_cons_self _ _)]
    exact ih (fun x hx => h x (List.mem_cons_of_mem _ hx))

/-- C6: both CSV loaders attempt their fixed encoding sequence in order,
use the first encoding whose read succeeds (earlier ones having raised
`UnicodeDecodeError`), resort to the last-resort read only after every
encoding failed, and return an empty dataframe instead of raising when
everything fails. -/
theorem csv_encoding_fallback (pdt pnm : String → Option String)
    (file : String → ReadOutcome) (lrP lrU : ReadOutcome) :
    (∀ pre e post df, procEncodings = pre ++ e :: post →
      (∀ x ∈ pre, file x = ReadOutcome.unicodeError) →
      file e = ReadOutcome.ok df →
      loadCsvDataProc pdt pnm file lrP = cleanDataframe pdt pnm df) ∧
    ((∀ x ∈ procEncodings, file x = ReadOutcome.unicodeError) →
      (∀ df, lrP = ReadOutcome.ok df →
        loadCsvDataProc pdt pnm file lrP = cleanDataframe pdt pnm df) ∧
      ((∀ df, lrP ≠ ReadOutcome.ok df) →
        loadCsvDataProc pdt pnm file lrP = DataFrame.empty)) ∧
    (∀ pre e post df, cachedEncodings = pre ++ e :: post →
      (∀ x ∈ pre, file x = ReadOutcome.unicodeError) →
      file e = ReadOutcome.ok df →
      loadCsvWithEncoding file lrU = Except.ok df) ∧
    ((∀ x ∈ cachedEncodings, file x = ReadOutcome.unicodeError) →
      (∀ df, lrU = ReadOutcome.ok df →
        loadCsvWithEncoding file lrU = Except.ok df) ∧
      ((∀ df, lrU ≠ ReadOutcome.ok df) →
        loadCsvWithEncoding file lrU = Except.ok DataFrame.empty)) := by
  refine ⟨?_, ?_, ?_, ?_⟩
  · intro pre e post df hsplit hpre he
    simp only [loadCsvDataProc, hsplit,
      scanEncodings_prefix_ok file pre e post df hpre he]
  · intro hall
    simp only [loadCsvDataProc, scanEncodings_all_unicode file _ hall]
    constructor
    · intro df hok
      rw [hok]
      rfl
    · intro hnot
      cases lrP with
      | ok df => exact absurd rfl (hnot df)
      | unicodeError => rfl
      | otherError => rfl
  · intro pre e post df hsplit hpre he
    simp only [loadCsvWithEncoding, hsplit,
      scanEncodings_prefix_ok file pre e post df hpre he]
  · intro hall
    simp only [loadCsvWithEncoding, scanEncodings_all_unicode file _ hall]
    constructor
    · intro df hok
      rw [hok]
      rfl
    · intro hnot
      cases lrU with
      | ok df => exact absurd rfl (hnot df)
      | unicodeError => rfl
      | otherError => rfl

def dfW6 : DataFrame := ⟨["c"], [[some "1"]]⟩

def fileW : String → ReadOutcome :=
  fun e => if e == "utf-8-sig" then ReadOutcome.ok dfW6
           else ReadOutcome.unicodeError

/-- Witness for C6: a file readable only as utf-8-sig is loaded by the
second processor encoding and by the first cached-loader encoding. -/
theorem csv_encoding_fallback_witness :
    loadCsvDataProc (fun _ => none) (fun _ => none) fileW ReadOutcome.otherError
      = cleanDataframe (fun _ => none) (fun _ => none) dfW6 ∧
    loadCsvWithEncoding fileW ReadOutcome.otherError = Except.ok dfW6 :=
  ⟨(csv_encoding_fallback (fun _ => none) (fun _ => none) fileW
      ReadOutcome.otherError ReadOutcome.otherError).1
      ["utf-8"] "utf-8-sig" ["cp1256", "iso-8859-1"] dfW6 rfl
      (by decide) (by decide),
   (csv_encoding_fallback (fun _ => none) (fun _ => none) fileW
      ReadOutcome.otherError ReadOutcome.otherError).2.2.1
      [] "utf-8-sig" ["utf-8", "latin-1", "cp1252"] dfW6 rfl
      (by decide) (by decide)⟩

/-- `load_excel_data` of `src/utils/data_processor.py`: a workbook that
fails to open yields `{}`; a sheet that fails to parse is skipped; the
cleaned non-empty sheets are kept. -/
def loadExcelData (pdt pnm : String → Option String)
    (wb : Except Unit (List (String × Except Unit DataFrame))) :
    List (String × DataFrame) :=
  match wb with
  | .error _ => []
  | .ok sheets =>
    sheets.filterMap (fun q =>
      match q.2 with
      | .error _ => none
      | .ok df =>
        let c := cleanDataframe pdt pnm df
        if c.isEmpty then none else some (q.1, c))

/-- `load_csv_data` of the top-level `data_processor.py`: one read wrapped
in try/except that returns an empty dataframe on any failure. -/
def loadCsvDataFlat (pdt pnm : String → Option String)
    (r : Except Unit DataFrame) : DataFrame :=
  match r with
  | .ok df => cleanDataframe pdt pnm df
  | .error _ => DataFrame.empty

/-- `load_all_data`: every Excel file that exists on disk is stored with
whatever `load_excel_data` returned (no emptiness check); a CSV file is
stored only when its load came back non-empty.  The Excel inputs carry
their `os.path.exists` flag; the CSV inputs carry the per-encoding read
outcomes and the last-resort outcome. -/
def loadAllData (pdt pnm : String → Option String)
    (excels : List (String × Bool × Except Unit (List (String × Except Unit DataFrame))))
    (csvs : List (String × (String → ReadOutcome) × ReadOutcome)) :
    List (String × LoadedData) :=
  (excels.filterMap (fun t =>
    if t.2.1 then some (t.1, LoadedData.sheets (loadExcelData pdt pnm t.2.2))
    else none))
  ++ (csvs.filterMap (fun t =>
    let d := loadCsvDataProc pdt pnm t.2.1 t.2.2
    if d.isEmpty then none else some (t.1, LoadedData.single d)))

/-- C7 counterexample: an Excel workbook that exists but fails to load
entirely is still included in `load_all_data`'s result (as an empty dict),
so the result does not consist exactly of the sources that loaded
non-empty. -/
theorem loadAllData_cex :
    loadAllData (fun _ => none) (fun _ => none)
        [("bad.xlsx", true, Except.error ())] []
      = [("bad.xlsx", LoadedData.sheets [])] ∧
    hasNonEmptyTable (LoadedData.sheets []) = false := by
  constructor <;> rfl

/-- C7 (amended): failures never propagate — a workbook that fails to open
yields the empty dict and a failing sheet is skipped while the remaining
cleaned non-empty sheets are returned; a CSV that fails entirely yields an
empty dataframe; and `load_all_data` includes every Excel source that
exists (regardless of whether it loaded non-empty) and includes a CSV
source exactly when its load is non-empty. -/
theorem loadAllData_amended (pdt pnm : String → Option String)
    (sheets : List (String × Except Unit DataFrame))
    (excels : List (String × Bool × Except Unit (List (String × Except Unit DataFrame))))
    (csvs : List (String × (String → ReadOutcome) × ReadOutcome))
    (nm : String) (d : LoadedData) :
    loadExcelData pdt pnm (Except.error ()) = [] ∧
    (∀ n c, (n, c) ∈ loadExcelData pdt pnm (Except.ok sheets)
      ↔ ∃ r, (n, Except.ok r) ∈ sheets ∧ c = cleanDataframe pdt pnm r ∧
          c.isEmpty = false) ∧
    loadCsvDataFlat pdt pnm (Except.error ()) = DataFrame.empty ∧
    ((nm, d) ∈ loadAllData pdt pnm excels csvs
      ↔ (∃ wb, (nm, true, wb) ∈ excels ∧
            d = LoadedData.sheets (loadExcelData pdt pnm wb))
        ∨ (∃ f lr, (nm, f, lr) ∈ csvs ∧
            d = LoadedData.single (loadCsvDataProc pdt pnm f lr) ∧
            (loadCsvDataProc pdt pnm f lr).isEmpty = false)) := by
  refine ⟨rfl, ?_, rfl, ?_⟩
  · intro n c
    rw [loadExcelData]
    constructor
    · intro hm
      rcases List.mem_filterMap.mp hm with ⟨⟨qn, qr⟩, hq, hf⟩
      cases qr with
      | error e => exact absurd hf (by simp)
      | ok r =>
        simp only at hf
        by_cases hce : (cleanDataframe pdt pnm r).isEmpty = true
        · rw [if_pos hce] at hf
          exact absurd hf (by simp)
        · rw [if_neg hce] at hf
          have h1 : qn = n := congrArg Prod.fst (Option.some.inj hf)
          have h2 : cleanDataframe pdt pnm r = c :=
            congrArg Prod.snd (Option.some.inj hf)
          subst h1
          refine ⟨r, hq, h2.symm, ?_⟩
          rw [← h2]
          simpa using hce
    · rintro ⟨r, hr, hc, hne⟩
      apply List.mem_filterMap.mpr
      refine ⟨(n, Except.ok r), hr, ?_⟩
      simp only
      rw [← hc, if_neg (by simp [hne])]
  · rw [loadAllData]
    constructor
    · intro hm
      rcases List.mem_append.mp hm with hm | hm
      · left
        rcases List.mem_filterMap.mp hm with ⟨⟨tn, te, tw⟩, ht, hf⟩
        cases te with
        | false => exact absurd hf (by simp)
        | true =>
          simp only [if_true] at hf
          have h1 : tn = nm := congrArg Prod.fst (Option.some.inj hf)
          have h2 : LoadedData.sheets (loadExcelData pdt pnm tw) = d :=
            congrArg Prod.snd (Option.some.inj hf)
          subst h1
          exact ⟨tw, ht, h2.symm⟩
      · right
        rcases List.mem_filterMap.mp hm with ⟨⟨tn, tf, tl⟩, ht, hf⟩
        simp only at hf
        by_cases hce : (loadCsvDataProc pdt pnm tf tl).isEmpty = true
        · rw [if_pos hce] at hf
          exact absurd hf (by simp)
        · rw [if_neg hce] at hf
          have h1 : tn = nm := congrArg Prod.fst (Option.some.inj hf)
          have h2 : LoadedData.single (loadCsvDataProc pdt pnm tf tl) = d :=
            congrArg Prod.snd (Option.some.inj hf)
          subst h1
          exact ⟨tf, tl, ht, h2.symm, by simpa using hce⟩
    · intro hm
      rcases hm with ⟨wb, hw, hd⟩ | ⟨f, lr, hc, hd, hne⟩
      · apply List.mem_append_left
        apply List.mem_filterMap.mpr
        refine ⟨(nm, true, wb), hw, ?_⟩
        simp [hd]
      · apply List.mem_append_right
        apply List.mem_filterMap.mpr
        refine ⟨(nm, f, lr), hc, ?_⟩
        simp only
        rw [if_neg (by simp [hne]), hd]

/-- Witness for C7's amended theorem: a failed workbook yields an empty
dict and a failed CSV read yields an empty dataframe. -/
theorem loadAllData_amended_witness :
    loadExcelData (fun _ => none) (fun _ => none) (Except.error ()) = [] ∧
    loadCsvDataFlat (fun _ => none) (fun _ => none) (Except.error ())
      = DataFrame.empty :=
  ⟨(loadAllData_amended (fun _ => none) (fun _ => none) [] [] [] "x"
      (LoadedData.sheets [])).1,
   (loadAllData_amended (fun _ => none) (fun _ => none) [] [] [] "x"
      (LoadedData.sheets [])).2.2.1⟩

/-- `df.duplicated().sum()`: count the rows equal to some earlier row;
`seen` holds the distinct rows already passed. -/
def dupCountFrom [BEq α] (seen : List α) : List α → Nat
  | [] => 0
  | a :: as =>
    if seen.contains a then 1 + dupCountFrom seen as
    else dupCountFrom (a :: seen) as

/-- `df.isnull().sum().sum()`: nulls counted per column, then summed. -/
def isnullSumSum (df : DataFrame) : Nat :=
  ((List.range df.cols.length).map
    (fun j => df.rows.countP (fun r => (r.getD j (some "")).isNone))).sum

/-- One entry of `get_data_quality_report` (the fields the claim names;
timestamps of `data_types`/`memory_usage` are outside the data model). -/
structure QualityEntry where
  totalRows : Nat
  totalCols : Nat
  missingPct : ℚ
  duplicateRows : Nat
deriving DecidableEq

def qualityEntry (df : DataFrame) : QualityEntry :=
  { totalRows := df.rows.length
    totalCols := df.cols.length
    missingPct :=
      ((isnullSumSum df : ℚ)
        / ((df.rows.length : ℚ) * (df.cols.length : ℚ))) * 100
    duplicateRows := dupCountFrom [] df.rows }

/-- `get_data_quality_report`: one entry per non-empty unified table. -/
def getDataQualityReport (unified : List (String × DataFrame)) :
    List (String × QualityEntry) :=
  unified.filterMap (fun p =>
    if p.2.isEmpty then none else some (p.1, qualityEntry p.2))

theorem dupCountFrom_add_dedup [BEq α] (l : List α) :
    ∀ seen : List α,
      dupCountFrom seen l + (dedupFirstAux seen l).length = l.length := by
  induction l with
  | nil => intro seen; rfl
  | cons a t ih =>
    intro seen
    rw [dupCountFrom, dedupFirstAux]
    by_cases h : seen.contains a
    · rw [if_pos h, if_pos h]
      have := ih seen
      simp only [List.length_cons]
      omega
    · rw [if_neg h, if_neg h]
      have := ih (a :: seen)
      simp only [List.length_cons]
      omega

theorem sum_map_add (l : List Nat) (f g : Nat → Nat) :
    (l.map (fun x => f x + g x)).sum = (l.map f).sum + (l.map g).sum := by
  induction l with
  | nil => rfl
  | cons a t ih =>
    simp only [List.map_cons, List.sum_cons, ih]
    omega

theorem countP_isNone_eq_sum_range (r : List Cell) :
    ((List.range r.length).map
      (fun j => if (r.getD j (some "")).isNone then 1 else 0)).sum
      = r.countP (fun c => c.isNone) := by
  induction r with
  | nil => rfl
  | cons x xs ih =>
    rw [List.length_cons, List.range_succ_eq_map]
    simp only [List.map_cons, List.map_map, List.sum_cons]
    have he : ((fun j => if ((x :: xs).getD j (some "")).isNone then 1 else 0)
          ∘ Nat.succ)
        = (fun j => if (xs.getD j (some "")).isNone then 1 else 0) := by
      funext j
      rfl
    rw [he, ih, List.countP_cons]
    cases x with
    | none => simp [Nat.add_comm]
    | some v => simp

theorem colwise_eq_rowwise (rows : List (List Cell)) (n : Nat)
    (h : ∀ r ∈ rows, r.length = n) :
    ((List.range n).map
      (fun j => rows.countP (fun r => (r.getD j (some "")).isNone))).sum
      = (rows.map (fun r => r.countP (fun c => c.isNone))).sum := by
  induction rows with
  | nil => simp
  | cons r rs ih =>
    have hr : r.length = n := h r (List.mem_cons_self _ _)
    have hrs := ih (fun x hx => h x (List.mem_cons_of_mem _ hx))
    simp only [List.countP_cons, List.map_cons, List.sum_cons]
    rw [sum_map_add, hrs]
    have hhead : ((List.range n).map
        (fun j => if (r.getD j (some "")).isNone then 1 else 0)).sum
        = r.countP (fun c => c.isNone) := by
      rw [← hr]
      exact countP_isNone_eq_sum_range r
    rw [hhead]
    omega

theorem isnullSumSum_eq_flat (df : DataFrame) (hwf : WF df) :
    isnullSumSum df
      = (df.rows.map (fun r => r.countP (fun c => c.isNone))).sum := by
  rw [isnullSumSum]
  exact colwise_eq_rowwise df.rows df.cols.length hwf

/-- C8: `get_data_quality_report` holds, for each non-empty table, its row
count, column count, missing-value percentage
(null cells / (rows × cols) × 100) and duplicate-row count, and holds no
entry for an empty table. -/
theorem dataQualityReport_spec (unified : List (String × DataFrame))
    (k : String) (df : DataFrame) (hwf : WF df) :
    ((k, df) ∈ unified → df.isEmpty = false →
      (k, qualityEntry df) ∈ getDataQualityReport unified) ∧
    (∀ p ∈ getDataQualityReport unified,
      ∃ d, (p.1, d) ∈ unified ∧ d.isEmpty = false ∧ p.2 = qualityEntry d) ∧
    (qualityEntry df).totalRows = df.rows.length ∧
    (qualityEntry df).totalCols = df.cols.length ∧
    (qualityEntry df).missingPct
      = (((df.rows.map (fun r => r.countP (fun c => c.isNone))).sum : ℕ) : ℚ) * 100
          / ((df.rows.length : ℚ) * (df.cols.length : ℚ)) ∧
    (qualityEntry df).duplicateRows
      = df.rows.length - (dedupFirst df.rows).length := by
  refine ⟨?_, ?_, rfl, rfl, ?_, ?_⟩
  · intro hm he
    apply List.mem_filterMap.mpr
    refine ⟨(k, df), hm, ?_⟩
    simp only
    rw [if_neg (by simp [he])]
  · intro p hp
    rcases List.mem_filterMap.mp hp with ⟨⟨qn, qd⟩, hq, hf⟩
    simp only at hf
    by_cases he : qd.isEmpty = true
    · rw [if_pos he] at hf
      exact absurd hf (by simp)
    · rw [if_neg he] at hf
      cases Option.some.inj hf
      exact ⟨qd, hq, by simpa using he, rfl⟩
  · show ((isnullSumSum df : ℚ)
        / ((df.rows.length : ℚ) * (df.cols.length : ℚ))) * 100 = _
    rw [isnullSumSum_eq_flat df hwf, div_mul_eq_mul_div]
  · show dupCountFrom [] df.rows = df.rows.length - (dedupFirst df.rows).length
    have := dupCountFrom_add_dedup df.rows ([] : List (List Cell))
    rw [dedupFirst]
    omega

def dfW8 : DataFrame := ⟨["a"], [[some "x"], [none], [some "x"]]⟩

/-- Witness for C8 at a 3-row table with one null and one duplicate row. -/
theorem dataQualityReport_spec_witness :
    ("t", qualityEntry dfW8) ∈ getDataQualityReport [("t", dfW8)] ∧
    (qualityEntry dfW8).duplicateRows
      = dfW8.rows.length - (dedupFirst dfW8.rows).length :=
  ⟨(dataQualityReport_spec [("t", dfW8)] "t" dfW8
      (by intro r hr; fin_cases hr <;> rfl)).1
      (by simp) (by decide),
   (dataQualityReport_spec [("t", dfW8)] "t" dfW8
      (by intro r hr; fin_cases hr <;> rfl)).2.2.2.2.2⟩

end Ana